import Mathlib

/-!
Shallow embedding of `packages/remix-server-runtime/data.ts`: the
data-loading/action-invocation layer of the Remix server runtime.  The
Fetch primitives (`Request`, `Response`, `URL`, `Headers`) are modelled
as plain records; a route handler is a function from its arguments to an
outcome that either resolves to a value or rejects with a thrown value,
and the two entry points return either a `Response` or a thrown value.
The helpers `json`, `isResponse` and `isRedirectResponse` live in
`responses.ts`, outside this repository slice, and are modelled from the
spec where their content matters.
-/

namespace Remix

/-- HTTP headers as an ordered association list of name/value pairs;
header names are compared case-insensitively, as in the Fetch `Headers`
API. -/
abbrev Headers := List (String × String)

/-- Case-insensitive equality of header names, as in the Fetch
`Headers` API. -/
def headerNameEq (a b : String) : Bool :=
  a.toList.map Char.toLower == b.toList.map Char.toLower

/-- The Fetch `headers.get(name)` operation: the value of the header, or
`none` when the header is absent. -/
def getHeader (hs : Headers) (name : String) : Option String :=
  (hs.find? (fun p => headerNameEq p.1 name)).map (fun p => p.2)

/-- The Fetch `headers.set(name, value)` operation: any existing value
for `name` is replaced by `value`. -/
def setHeader (hs : Headers) (name value : String) : Headers :=
  hs.filter (fun p => !headerNameEq p.1 name) ++ [(name, value)]

/-- A Fetch `Response`: a status code, headers and a body. -/
structure Response where
  status : Nat
  headers : Headers
  body : Option String
deriving DecidableEq

/-- A WHATWG `URL`, split into the part before the query string and the
ordered list of query parameters (`url.searchParams`). -/
structure URL where
  base : String
  params : List (String × String)
deriving DecidableEq

/-- The serialized form of a URL, `url.href`. -/
def URL.href (u : URL) : String :=
  match u.params with
  | [] => u.base
  | _ => u.base ++ "?" ++ String.intercalate "&" (u.params.map (fun p => p.1 ++ "=" ++ p.2))

/-- A Fetch `Request`: method, URL, headers and body.  The constructor
call `new Request(url.href, request)` of the source is modelled as a
record update of the `url` field, which carries method, headers and body
over unchanged. -/
structure Request where
  method : String
  url : URL
  headers : Headers
  body : Option String
deriving DecidableEq

/-- The `url.searchParams.getAll(name)` operation: all values of the
parameters called `name`, in order. -/
def searchParamsGetAll (ps : List (String × String)) (name : String) : List String :=
  (ps.filter (fun p => p.1 == name)).map (fun p => p.2)

/-- The `url.searchParams.delete(name)` operation: every parameter
called `name` is removed, the rest keep their order. -/
def searchParamsDelete (ps : List (String × String)) (name : String) : List (String × String) :=
  ps.filter (fun p => p.1 != name)

/-- A JavaScript value as resolved from a route handler: a `Response`,
`undefined`, or any other piece of data (abstracted to a string
payload).  The source test `isResponse(result)` corresponds to the
`response` constructor. -/
inductive AppData where
  | response : Response → AppData
  | data : String → AppData
  | undef : AppData
deriving DecidableEq

/-- A JavaScript value as thrown by a route handler or by the runtime
itself: a `Response`, an `Error` object carrying a message, or any other
value (abstracted to a string payload). -/
inductive Thrown where
  | resp : Response → Thrown
  | errorObj : String → Thrown
  | other : String → Thrown
deriving DecidableEq

/-- The `isResponse` test of `responses.ts` applied to a thrown value:
it holds exactly on the `resp` constructor. -/
def isResponse : Thrown → Bool
  | Thrown.resp _ => true
  | _ => false

/-- Modelled from the spec: `isRedirectResponse` lives in
`responses.ts`, outside this repository slice.  The spec only says
thrown values are reclassified as either redirect responses or rethrown
errors; the standard redirect status codes are used here. -/
def isRedirectResponse (r : Response) : Bool :=
  [301, 302, 303, 307, 308].contains r.status

/-- Modelled from the spec: `json` lives in `responses.ts`, outside this
repository slice.  It wraps handler data in a JSON `Response`. -/
def json (d : String) : Response :=
  { status := 200
    headers := [("Content-Type", "application/json; charset=utf-8")]
    body := some d }

/-- The `AppLoadContext` of the source is `any`; it is abstracted to a
string token, since the entry points only pass it through. -/
abbrev AppLoadContext := String

/-- Route params as produced by route matching, an association list. -/
abbrev Params := List (String × String)

/-- The argument object `{ request, context, params }` passed to a
loader or action. -/
structure HandlerArgs where
  request : Request
  context : AppLoadContext
  params : Params

/-- The result of awaiting a handler: the promise resolves to a value or
rejects with a thrown value. -/
inductive Outcome where
  | ret : AppData → Outcome
  | thrown : Thrown → Outcome
deriving DecidableEq

/-- A user-supplied `loader` or `action` function. -/
abbrev Handler := HandlerArgs → Outcome

/-- The part of a route module the entry points look at: an optional
`action` and an optional `loader`. -/
structure RouteModule where
  action : Option Handler
  loader : Option Handler

/-- A server route as consumed by the entry points: its id and its
module. -/
structure ServerRoute where
  id : String
  module : RouteModule

/-- The observable outcome of `callRouteAction` or `callRouteLoader`: a
normally returned `Response`, or a thrown value. -/
inductive CallResult where
  | ok : Response → CallResult
  | thrown : Thrown → CallResult
deriving DecidableEq

/-- The `stripIndexParam` helper of `data.ts`: all `index` parameters
are read off and deleted, and the truthy (non-empty) values are appended
back in order. -/
def stripIndexParam (request : Request) : Request :=
  let url := request.url
  let indexValues := searchParamsGetAll url.params "index"
  let deleted := searchParamsDelete url.params "index"
  let indexValuesToKeep := indexValues.filter (fun v => v != "")
  { request with
      url := { url with params := deleted ++ indexValuesToKeep.map (fun v => ("index", v)) } }

/-- The `stripDataParam` helper of `data.ts`: every `_data` parameter is
deleted. -/
def stripDataParam (request : Request) : Request :=
  { request with
      url := { request.url with params := searchParamsDelete request.url.params "_data" } }

/-- The `callRouteAction` entry point of `data.ts`. -/
def callRouteAction (loadContext : AppLoadContext) (route : ServerRoute)
    (params : Params) (request : Request) : CallResult :=
  match route.module.action with
  | none =>
      CallResult.ok
        { status := 405
          headers := setHeader [] "X-Remix-Catch" "yes"
          body := none }
  | some action =>
      let result : Except Thrown AppData :=
        match action { request := stripDataParam (stripIndexParam request)
                       context := loadContext
                       params := params } with
        | Outcome.ret value => Except.ok value
        | Outcome.thrown error =>
            match error with
            | Thrown.resp r =>
                if isRedirectResponse r then
                  Except.ok (AppData.response r)
                else
                  Except.error
                    (Thrown.resp { r with headers := setHeader r.headers "X-Remix-Catch" "yes" })
            | _ => Except.error error
      match result with
      | Except.error error => CallResult.thrown error
      | Except.ok AppData.undef =>
          CallResult.thrown (Thrown.errorObj
            ("You defined an action for route \x22" ++ route.id ++ "\x22 but didn\x27t return " ++
             "anything from your `action` function. Please return a value or `null`."))
      | Except.ok (AppData.response r) => CallResult.ok r
      | Except.ok (AppData.data d) => CallResult.ok (json d)

/-- The `callRouteLoader` entry point of `data.ts`. -/
def callRouteLoader (loadContext : AppLoadContext) (route : ServerRoute)
    (params : Params) (request : Request) : CallResult :=
  match route.module.loader with
  | none =>
      CallResult.thrown (Thrown.errorObj
        ("You made a " ++ request.method ++ " request to " ++ request.url.href ++
         " but did not provide " ++
         "a default component or `loader` for route \x22" ++ route.id ++ "\x22, " ++
         "so there is no way to handle the request."))
  | some loader =>
      let result : Except Thrown AppData :=
        match loader { request := stripDataParam (stripIndexParam request)
                       context := loadContext
                       params := params } with
        | Outcome.ret value => Except.ok value
        | Outcome.thrown error =>
            match error with
            | Thrown.resp r =>
                if isRedirectResponse r then
                  Except.ok (AppData.response r)
                else
                  Except.error
                    (Thrown.resp { r with headers := setHeader r.headers "X-Remix-Catch" "yes" })
            | _ => Except.error error
      match result with
      | Except.error error => CallResult.thrown error
      | Except.ok AppData.undef =>
          CallResult.thrown (Thrown.errorObj
            ("You defined a loader for route \x22" ++ route.id ++ "\x22 but didn\x27t return " ++
             "anything from your `loader` function. Please return a value or `null`."))
      | Except.ok (AppData.response r) => CallResult.ok r
      | Except.ok (AppData.data d) => CallResult.ok (json d)

/-- A word character in the sense of the JavaScript regex class `\w`. -/
def isWordChar (c : Char) : Bool :=
  c.isAlphanum || c == '_'

/-- Whether a `\b` word boundary holds before the pattern, given the
character immediately preceding the candidate position, if any. -/
def boundaryOk : Option Char → Bool
  | none => true
  | some c => !isWordChar c

/-- Whether a `\b` word boundary holds after the pattern, given the rest
of the input. -/
def afterOk : List Char → Bool
  | [] => true
  | c :: _ => !isWordChar c

/-- Scan for a word-bounded occurrence of `pat`: `prev` is the character
immediately before the current position, if any. -/
def wordBoundedMatchAux (pat : List Char) : Option Char → List Char → Bool
  | prev, [] =>
      boundaryOk prev && pat.isPrefixOf ([] : List Char) && afterOk (([] : List Char).drop pat.length)
  | prev, c :: rest =>
      (boundaryOk prev && pat.isPrefixOf (c :: rest) && afterOk ((c :: rest).drop pat.length)) ||
      wordBoundedMatchAux pat (some c) rest

/-- The regex test of `extractData`: whether the content type matches
the JavaScript regular expression for a word-bounded occurrence of the
literal `application/json`. -/
def matchesJsonContentType (s : String) : Bool :=
  wordBoundedMatchAux "application/json".toList none s.toList

/-- The result of `extractData`: the body handed to `response.json()`
for JSON parsing, or handed to `response.text()` as plain text. -/
inductive Extracted where
  | asJson : Option String → Extracted
  | asText : Option String → Extracted
deriving DecidableEq

/-- The `extractData` helper of `data.ts`: the body is parsed as JSON
exactly when the `Content-Type` header is present, truthy, and matches
the word-bounded `application/json` test; otherwise it is read as
text. -/
def extractData (response : Response) : Extracted :=
  match getHeader response.headers "Content-Type" with
  | some contentType =>
      if contentType != "" && matchesJsonContentType contentType then
        Extracted.asJson response.body
      else
        Extracted.asText response.body
  | none => Extracted.asText response.body

/-- The error message thrown by `callRouteAction` when the action
resolved to `undefined`. -/
def actionUndefinedMessage (routeId : String) : String :=
  "You defined an action for route \x22" ++ routeId ++ "\x22 but didn\x27t return " ++
  "anything from your `action` function. Please return a value or `null`."

/-- The error message thrown by `callRouteLoader` when the loader
resolved to `undefined`. -/
def loaderUndefinedMessage (routeId : String) : String :=
  "You defined a loader for route \x22" ++ routeId ++ "\x22 but didn\x27t return " ++
  "anything from your `loader` function. Please return a value or `null`."

/-- The error message thrown by `callRouteLoader` when the route module
has no loader. -/
def loaderAbsentMessage (method href routeId : String) : String :=
  "You made a " ++ method ++ " request to " ++ href ++
  " but did not provide " ++
  "a default component or `loader` for route \x22" ++ routeId ++ "\x22, " ++
  "so there is no way to handle the request."

/-- The common tail shared by the two entry points: the try/catch
reclassification of thrown values, the `undefined` check, and the
response/`json` normalization, parametrized by the message of the
`undefined` error. -/
def processHandlerOutcome (undefinedMessage : String) (outcome : Outcome) : CallResult :=
  let result : Except Thrown AppData :=
    match outcome with
    | Outcome.ret value => Except.ok value
    | Outcome.thrown error =>
        match error with
        | Thrown.resp r =>
            if isRedirectResponse r then
              Except.ok (AppData.response r)
            else
              Except.error
                (Thrown.resp { r with headers := setHeader r.headers "X-Remix-Catch" "yes" })
        | _ => Except.error error
  match result with
  | Except.error error => CallResult.thrown error
  | Except.ok AppData.undef => CallResult.thrown (Thrown.errorObj undefinedMessage)
  | Except.ok (AppData.response r) => CallResult.ok r
  | Except.ok (AppData.data d) => CallResult.ok (json d)

/-- The character just before the current scan position: the last
character of `pre` when `pre` is nonempty, otherwise the character that
preceded `pre`, if any. -/
def lastOr (prev : Option Char) (pre : List Char) : Option Char :=
  match pre.getLast? with
  | some c => some c
  | none => prev

/-- Declarative reading of the regular expression of `extractData`: the
input contains an occurrence of `pat` with a word boundary on each
side. -/
def WordBoundedOccurs (pat s : List Char) : Prop :=
  ∃ pre post, s = pre ++ pat ++ post ∧
    (∀ c, pre.getLast? = some c → isWordChar c = false) ∧
    (∀ c, post.head? = some c → isWordChar c = false)

/-- A concrete load context used in witnesses. -/
def ctx0 : AppLoadContext := "ctx"

/-- A concrete GET request used in witnesses, carrying `index` and
`_data` parameters. -/
def req0 : Request :=
  { method := "GET"
    url := { base := "http://localhost/a"
             params := [("index", ""), ("q", "1"), ("index", "b"), ("_data", "routes/a")] }
    headers := [("h", "v")]
    body := none }

/-- The same request with a mutating method, used in witnesses. -/
def reqPost : Request :=
  { req0 with method := "POST" }

/-- A concrete response used in witnesses. -/
def resp0 : Response :=
  { status := 200, headers := [], body := some "ok" }

/-- A handler resolving to a response. -/
def handlerResp : Handler :=
  fun _ => Outcome.ret (AppData.response resp0)

/-- A handler resolving to plain data. -/
def handlerData1 : Handler :=
  fun _ => Outcome.ret (AppData.data "one")

/-- A second handler resolving to different plain data. -/
def handlerData2 : Handler :=
  fun _ => Outcome.ret (AppData.data "two")

/-- A syntactic copy of `handlerData1`, agreeing with it on every
argument. -/
def handlerData1Copy : Handler :=
  fun _ => Outcome.ret (AppData.data "one")

/-- A handler resolving to `undefined`. -/
def handlerUndef : Handler :=
  fun _ => Outcome.ret AppData.undef

/-- A handler rejecting with a non-`Response` value. -/
def handlerThrowOther : Handler :=
  fun _ => Outcome.thrown (Thrown.other "boom")

/-- A redirect response used in witnesses. -/
def respRedirect : Response :=
  { status := 302, headers := [("Location", "/x")], body := none }

/-- A non-redirect response used in witnesses. -/
def respCatch : Response :=
  { status := 400, headers := [], body := some "bad" }

/-- A handler rejecting with a redirect response. -/
def handlerThrowRedirect : Handler :=
  fun _ => Outcome.thrown (Thrown.resp respRedirect)

/-- A handler rejecting with a non-redirect response. -/
def handlerThrowResp : Handler :=
  fun _ => Outcome.thrown (Thrown.resp respCatch)

/-- A response whose content type is JSON, used in witnesses. -/
def respJson : Response :=
  { status := 200, headers := [("Content-Type", "application/json")], body := some "x" }

/-- Unfolding of `callRouteAction` when the action is present: the call
is the shared tail applied to the action's outcome at the normalized
request. -/
theorem callRouteAction_some_eq (c : AppLoadContext) (rid : String) (h : Handler)
    (lo : Option Handler) (p : Params) (req : Request) :
    callRouteAction c ⟨rid, ⟨some h, lo⟩⟩ p req
      = processHandlerOutcome (actionUndefinedMessage rid)
          (h { request := stripDataParam (stripIndexParam req), context := c, params := p }) := by
  cases ho : h { request := stripDataParam (stripIndexParam req), context := c, params := p } with
  | ret v => cases v <;> simp [callRouteAction, processHandlerOutcome, actionUndefinedMessage, ho]
  | thrown e =>
      cases e <;>
        simp [callRouteAction, processHandlerOutcome, actionUndefinedMessage, ho]

/-- Unfolding of `callRouteLoader` when the loader is present: the call
is the shared tail applied to the loader's outcome at the normalized
request. -/
theorem callRouteLoader_some_eq (c : AppLoadContext) (rid : String) (h : Handler)
    (ao : Option Handler) (p : Params) (req : Request) :
    callRouteLoader c ⟨rid, ⟨ao, some h⟩⟩ p req
      = processHandlerOutcome (loaderUndefinedMessage rid)
          (h { request := stripDataParam (stripIndexParam req), context := c, params := p }) := by
  cases ho : h { request := stripDataParam (stripIndexParam req), context := c, params := p } with
  | ret v => cases v <;> simp [callRouteLoader, processHandlerOutcome, loaderUndefinedMessage, ho]
  | thrown e =>
      cases e <;>
        simp [callRouteLoader, processHandlerOutcome, loaderUndefinedMessage, ho]

/-- Deleting a name distributes over appending parameter lists. -/
theorem searchParamsDelete_append (xs ys : List (String × String)) (n : String) :
    searchParamsDelete (xs ++ ys) n = searchParamsDelete xs n ++ searchParamsDelete ys n := by
  simp [searchParamsDelete, List.filter_append]

/-- Reading all values of a name distributes over appending parameter
lists. -/
theorem searchParamsGetAll_append (xs ys : List (String × String)) (n : String) :
    searchParamsGetAll (xs ++ ys) n = searchParamsGetAll xs n ++ searchParamsGetAll ys n := by
  simp [searchParamsGetAll, List.filter_append]

/-- Filtering with the same key test twice changes nothing. -/
theorem filter_searchParamsDelete (ps : List (String × String)) (n : String) :
    (searchParamsDelete ps n).filter (fun p => p.1 != n) = searchParamsDelete ps n := by
  simp [searchParamsDelete, List.filter_filter]

/-- Parameters all named `index` disappear under the non-`index`
filter. -/
theorem filter_ne_index_map (ks : List String) :
    (ks.map (fun v => ("index", v))).filter (fun p => p.1 != "index") = [] := by
  induction ks with
  | nil => rfl
  | cons v ks ih => simp [ih]

/-- After deleting the `index` parameters and then the `_data`
parameters, no `index` parameter remains. -/
theorem getAll_index_delete_delete (ps : List (String × String)) :
    searchParamsGetAll (searchParamsDelete (searchParamsDelete ps "index") "_data") "index"
      = [] := by
  induction ps with
  | nil => rfl
  | cons a ps ih =>
      by_cases h1 : a.1 = "index"
      · simpa [searchParamsDelete, List.filter_cons, h1] using ih
      · by_cases h2 : a.1 = "_data"
        · simpa [searchParamsDelete, List.filter_cons, h1, h2] using ih
        · simpa [searchParamsGetAll, searchParamsDelete, List.filter_cons, h1, h2] using ih

/-- Appended `index` parameters survive the `_data` deletion and are
read back in order. -/
theorem getAll_index_map (ks : List String) :
    searchParamsGetAll (searchParamsDelete (ks.map (fun v => ("index", v))) "_data") "index"
      = ks := by
  induction ks with
  | nil => rfl
  | cons v ks ih => simpa [searchParamsGetAll, searchParamsDelete] using ih

/-- The `index` values of a parameter list of the shape produced by
`stripIndexParam`, after the `_data` deletion of `stripDataParam`. -/
theorem getAll_index_strip (ps : List (String × String)) (ks : List String) :
    searchParamsGetAll
        (searchParamsDelete
          (searchParamsDelete ps "index" ++ ks.map (fun v => ("index", v))) "_data") "index"
      = ks := by
  rw [searchParamsDelete_append, searchParamsGetAll_append, getAll_index_delete_delete,
    getAll_index_map, List.nil_append]

/-- Reading of `boundaryOk` as a statement about the preceding
character. -/
theorem boundaryOk_iff (prev : Option Char) :
    boundaryOk prev = true ↔ ∀ c, prev = some c → isWordChar c = false := by
  cases prev <;> simp [boundaryOk]

/-- Reading of `afterOk` as a statement about the first remaining
character. -/
theorem afterOk_iff (l : List Char) :
    afterOk l = true ↔ ∀ c, l.head? = some c → isWordChar c = false := by
  cases l <;> simp [afterOk]

/-- The boolean prefix test is the existence of a suffix. -/
theorem isPrefixOf_iff_append (pat : List Char) :
    ∀ s : List Char, pat.isPrefixOf s = true ↔ ∃ t, s = pat ++ t := by
  induction pat with
  | nil => intro s; simp [List.isPrefixOf]
  | cons a pat ih =>
      intro s
      cases s with
      | nil => simp [List.isPrefixOf]
      | cons b s =>
          simp only [List.isPrefixOf, Bool.and_eq_true, beq_iff_eq, ih s, List.cons_append,
            List.cons.injEq]
          constructor
          · rintro ⟨hab, t, ht⟩
            exact ⟨t, hab.symm, ht⟩
          · rintro ⟨t, hab, ht⟩
            exact ⟨hab.symm, t, ht⟩

/-- The character before the scan position, one step further in. -/
theorem lastOr_cons (prev : Option Char) (c : Char) (pre : List Char) :
    lastOr prev (c :: pre) = lastOr (some c) pre := by
  cases pre with
  | nil => rfl
  | cons d pre =>
      unfold lastOr
      rw [List.getLast?_cons_cons]
      cases hl : (d :: pre).getLast? with
      | none => simp at hl
      | some e => rfl

/-- Correctness of the word-bounded scan: it succeeds exactly when the
input splits around the pattern with non-word characters (or ends of the
input, represented through `prev`) on both sides. -/
theorem wordBoundedMatchAux_iff (pat : List Char) :
    ∀ (s : List Char) (prev : Option Char),
      wordBoundedMatchAux pat prev s = true ↔
        ∃ pre post, s = pre ++ pat ++ post ∧
          (∀ c, lastOr prev pre = some c → isWordChar c = false) ∧
          (∀ c, post.head? = some c → isWordChar c = false) := by
  intro s
  induction s with
  | nil =>
      intro prev
      simp only [wordBoundedMatchAux, Bool.and_eq_true, boundaryOk_iff,
        isPrefixOf_iff_append, List.drop_nil, afterOk_iff]
      constructor
      · rintro ⟨⟨hb, t, ht⟩, ha⟩
        have hpat : pat = [] := (List.append_eq_nil.mp ht.symm).1
        refine ⟨[], [], ?_, ?_, ?_⟩
        · simp [hpat]
        · intro c hc
          exact hb c hc
        · intro c hc
          simp at hc
      · rintro ⟨pre, post, hsplit, h1, h2⟩
        have h0 : pre = [] ∧ pat ++ post = [] := List.append_eq_nil.mp (by
          simpa [List.append_assoc] using hsplit.symm)
        have hpat : pat = [] := (List.append_eq_nil.mp h0.2).1
        refine ⟨⟨?_, [], by simp [hpat]⟩, ?_⟩
        · intro c hc
          apply h1 c
          simp [lastOr, h0.1, hc]
        · intro c hc
          simp at hc
  | cons c rest ih =>
      intro prev
      simp only [wordBoundedMatchAux, Bool.or_eq_true, Bool.and_eq_true, boundaryOk_iff,
        isPrefixOf_iff_append, afterOk_iff, ih (some c)]
      constructor
      · rintro (⟨⟨hb, t, ht⟩, ha⟩ | ⟨pre, post, hsplit, h1, h2⟩)
        · refine ⟨[], t, by simpa using ht, ?_, ?_⟩
          · intro d hd
            exact hb d hd
          · intro d hd
            apply ha d
            rw [ht, List.drop_left]
            exact hd
        · refine ⟨c :: pre, post, by simp [hsplit], ?_, h2⟩
          intro d hd
          rw [lastOr_cons] at hd
          exact h1 d hd
      · rintro ⟨pre, post, hsplit, h1, h2⟩
        cases pre with
        | nil =>
            left
            simp only [List.nil_append] at hsplit
            refine ⟨⟨?_, post, hsplit⟩, ?_⟩
            · intro d hd
              apply h1 d
              simpa [lastOr] using hd
            · intro d hd
              rw [hsplit, List.drop_left] at hd
              exact h2 d hd
        | cons e pre =>
            right
            simp only [List.cons_append, List.cons.injEq] at hsplit
            obtain ⟨hec, hrest⟩ := hsplit
            subst hec
            refine ⟨pre, post, hrest, ?_, h2⟩
            intro d hd
            apply h1 d
            rw [lastOr_cons]
            exact hd

/-- The scan entered with no preceding character decides the declarative
word-bounded-occurrence property. -/
theorem matchesJsonContentType_iff (s : String) :
    matchesJsonContentType s = true ↔
      WordBoundedOccurs "application/json".toList s.toList := by
  rw [matchesJsonContentType, wordBoundedMatchAux_iff]
  unfold WordBoundedOccurs
  constructor
  · rintro ⟨pre, post, hsplit, h1, h2⟩
    refine ⟨pre, post, hsplit, ?_, h2⟩
    intro c hc
    apply h1 c
    simp [lastOr, hc]
  · rintro ⟨pre, post, hsplit, h1, h2⟩
    refine ⟨pre, post, hsplit, ?_, h2⟩
    intro c hc
    apply h1 c
    unfold lastOr at hc
    cases hl : pre.getLast? with
    | none => rw [hl] at hc; simp at hc
    | some d => rw [hl] at hc; simpa [hl] using hc

/-- C1: when `callRouteAction` or `callRouteLoader` returns normally,
the returned value is a `Response`: a handler result that is itself a
`Response` is returned unchanged, and any other handler data is wrapped
via `json`. -/
theorem callRoute_result_normalization (c : AppLoadContext) (rid : String)
    (ao lo : Option Handler) (h : Handler) (p : Params) (req : Request) :
    (∀ r, h { request := stripDataParam (stripIndexParam req), context := c, params := p }
            = Outcome.ret (AppData.response r) →
        callRouteAction c ⟨rid, ⟨some h, lo⟩⟩ p req = CallResult.ok r ∧
        callRouteLoader c ⟨rid, ⟨ao, some h⟩⟩ p req = CallResult.ok r) ∧
    (∀ d, h { request := stripDataParam (stripIndexParam req), context := c, params := p }
            = Outcome.ret (AppData.data d) →
        callRouteAction c ⟨rid, ⟨some h, lo⟩⟩ p req = CallResult.ok (json d) ∧
        callRouteLoader c ⟨rid, ⟨ao, some h⟩⟩ p req = CallResult.ok (json d)) := by
  constructor
  · intro r hr
    rw [callRouteAction_some_eq, callRouteLoader_some_eq, hr]
    exact ⟨rfl, rfl⟩
  · intro d hd
    rw [callRouteAction_some_eq, callRouteLoader_some_eq, hd]
    exact ⟨rfl, rfl⟩

/-- Witness for C1 at concrete inputs: a response result is returned
unchanged, data is wrapped via `json`. -/
theorem callRoute_result_normalization_witness :
    callRouteAction ctx0 ⟨"w1", ⟨some handlerResp, none⟩⟩ [] req0 = CallResult.ok resp0 ∧
    callRouteLoader ctx0 ⟨"w1", ⟨none, some handlerData1⟩⟩ [] req0 = CallResult.ok (json "one") :=
  ⟨((callRoute_result_normalization ctx0 "w1" none none handlerResp [] req0).1 resp0 rfl).1,
   ((callRoute_result_normalization ctx0 "w1" none none handlerData1 [] req0).2 "one" rfl).2⟩

/-- C2: a thrown value that is not a `Response` is rethrown unchanged; a
thrown non-redirect `Response` is rethrown with its `X-Remix-Catch`
header set to `yes`; a thrown redirect `Response` becomes the returned
result. -/
theorem callRoute_thrown_classification (c : AppLoadContext) (rid : String)
    (ao lo : Option Handler) (h : Handler) (p : Params) (req : Request) :
    (∀ t, h { request := stripDataParam (stripIndexParam req), context := c, params := p }
            = Outcome.thrown t → isResponse t = false →
        callRouteAction c ⟨rid, ⟨some h, lo⟩⟩ p req = CallResult.thrown t ∧
        callRouteLoader c ⟨rid, ⟨ao, some h⟩⟩ p req = CallResult.thrown t) ∧
    (∀ r, h { request := stripDataParam (stripIndexParam req), context := c, params := p }
            = Outcome.thrown (Thrown.resp r) → isRedirectResponse r = false →
        callRouteAction c ⟨rid, ⟨some h, lo⟩⟩ p req
          = CallResult.thrown
              (Thrown.resp { r with headers := setHeader r.headers "X-Remix-Catch" "yes" }) ∧
        callRouteLoader c ⟨rid, ⟨ao, some h⟩⟩ p req
          = CallResult.thrown
              (Thrown.resp { r with headers := setHeader r.headers "X-Remix-Catch" "yes" })) ∧
    (∀ r, h { request := stripDataParam (stripIndexParam req), context := c, params := p }
            = Outcome.thrown (Thrown.resp r) → isRedirectResponse r = true →
        callRouteAction c ⟨rid, ⟨some h, lo⟩⟩ p req = CallResult.ok r ∧
        callRouteLoader c ⟨rid, ⟨ao, some h⟩⟩ p req = CallResult.ok r) := by
  refine ⟨?_, ?_, ?_⟩
  · intro t ht hnr
    rw [callRouteAction_some_eq, callRouteLoader_some_eq, ht]
    cases t with
    | resp r => simp [isResponse] at hnr
    | errorObj m => exact ⟨rfl, rfl⟩
    | other v => exact ⟨rfl, rfl⟩
  · intro r hr hnred
    rw [callRouteAction_some_eq, callRouteLoader_some_eq, hr]
    constructor <;> simp [processHandlerOutcome, hnred]
  · intro r hr hred
    rw [callRouteAction_some_eq, callRouteLoader_some_eq, hr]
    constructor <;> simp [processHandlerOutcome, hred]

/-- Witness for C2 at concrete inputs: a non-`Response` throw is
rethrown, a non-redirect `Response` is rethrown tagged, a redirect is
returned. -/
theorem callRoute_thrown_classification_witness :
    callRouteAction ctx0 ⟨"w2", ⟨some handlerThrowOther, none⟩⟩ [] req0
      = CallResult.thrown (Thrown.other "boom") ∧
    callRouteAction ctx0 ⟨"w2", ⟨some handlerThrowResp, none⟩⟩ [] req0
      = CallResult.thrown
          (Thrown.resp { respCatch with headers := setHeader respCatch.headers "X-Remix-Catch" "yes" }) ∧
    callRouteLoader ctx0 ⟨"w2", ⟨none, some handlerThrowRedirect⟩⟩ [] req0
      = CallResult.ok respRedirect :=
  ⟨((callRoute_thrown_classification ctx0 "w2" none none handlerThrowOther [] req0).1
      (Thrown.other "boom") rfl rfl).1,
   ((callRoute_thrown_classification ctx0 "w2" none none handlerThrowResp [] req0).2.1
      respCatch rfl rfl).1,
   ((callRoute_thrown_classification ctx0 "w2" none none handlerThrowRedirect [] req0).2.2
      respRedirect rfl rfl).2⟩

/-- C9: a handler that resolves to `undefined` makes the entry point
throw an `Error` whose message names the route id, instead of
returning. -/
theorem callRoute_undefined_result_throws (c : AppLoadContext) (rid : String)
    (ao lo : Option Handler) (h : Handler) (p : Params) (req : Request)
    (hu : h { request := stripDataParam (stripIndexParam req), context := c, params := p }
            = Outcome.ret AppData.undef) :
    callRouteAction c ⟨rid, ⟨some h, lo⟩⟩ p req
      = CallResult.thrown (Thrown.errorObj (actionUndefinedMessage rid)) ∧
    callRouteLoader c ⟨rid, ⟨ao, some h⟩⟩ p req
      = CallResult.thrown (Thrown.errorObj (loaderUndefinedMessage rid)) ∧
    (∃ s1 s2, actionUndefinedMessage rid = s1 ++ (rid ++ s2)) ∧
    (∃ s1 s2, loaderUndefinedMessage rid = s1 ++ (rid ++ s2)) := by
  refine ⟨?_, ?_, ?_, ?_⟩
  · rw [callRouteAction_some_eq, hu]; rfl
  · rw [callRouteLoader_some_eq, hu]; rfl
  · exact ⟨"You defined an action for route \x22",
      "\x22 but didn\x27t return " ++
        "anything from your `action` function. Please return a value or `null`.",
      by simp [actionUndefinedMessage, String.append_assoc]⟩
  · exact ⟨"You defined a loader for route \x22",
      "\x22 but didn\x27t return " ++
        "anything from your `loader` function. Please return a value or `null`.",
      by simp [loaderUndefinedMessage, String.append_assoc]⟩

/-- Witness for C9 at a concrete route: the `undefined` resolution turns
into a thrown `Error`. -/
theorem callRoute_undefined_result_throws_witness :
    callRouteAction ctx0 ⟨"w9", ⟨some handlerUndef, none⟩⟩ [] req0
      = CallResult.thrown (Thrown.errorObj (actionUndefinedMessage "w9")) :=
  (callRoute_undefined_result_throws ctx0 "w9" none none handlerUndef [] req0 rfl).1

/-- C6: with no action, `callRouteAction` returns a 405 response tagged
`X-Remix-Catch: yes`; with no loader, `callRouteLoader` throws an
`Error` and never returns normally. -/
theorem callRoute_absent_handler_diverges (c : AppLoadContext) (rid : String)
    (ao lo : Option Handler) (p : Params) (req : Request) :
    callRouteAction c ⟨rid, ⟨none, lo⟩⟩ p req
      = CallResult.ok { status := 405, headers := [("X-Remix-Catch", "yes")], body := none } ∧
    callRouteLoader c ⟨rid, ⟨ao, none⟩⟩ p req
      = CallResult.thrown (Thrown.errorObj (loaderAbsentMessage req.method req.url.href rid)) :=
  ⟨rfl, rfl⟩

/-- C7: an absent handler is never invoked: with `action` (resp.
`loader`) absent, the outcome does not depend on the load context, the
params, or the other handler of the module. -/
theorem callRoute_absent_handler_not_invoked (c1 c2 : AppLoadContext) (rid : String)
    (ao1 ao2 lo1 lo2 : Option Handler) (p1 p2 : Params) (req : Request) :
    callRouteAction c1 ⟨rid, ⟨none, lo1⟩⟩ p1 req = callRouteAction c2 ⟨rid, ⟨none, lo2⟩⟩ p2 req ∧
    callRouteLoader c1 ⟨rid, ⟨ao1, none⟩⟩ p1 req = callRouteLoader c2 ⟨rid, ⟨ao2, none⟩⟩ p2 req :=
  ⟨rfl, rfl⟩

/-- C3: after normalization every `_data` parameter is gone, every empty
`index` parameter is gone, the non-empty `index` values are kept in
order, and each entry point probes its handler only at the normalized
request. -/
theorem callRoute_request_normalization (req : Request) :
    ((stripDataParam (stripIndexParam req)).url.params.all
        (fun p => p.1 != "_data" && (p.1 != "index" || p.2 != "")) = true) ∧
    (searchParamsGetAll (stripDataParam (stripIndexParam req)).url.params "index"
        = (searchParamsGetAll req.url.params "index").filter (fun v => v != "")) ∧
    (∀ (c : AppLoadContext) (pa : Params) (rid : String) (ao lo : Option Handler)
        (h1 h2 : Handler),
      h1 { request := stripDataParam (stripIndexParam req), context := c, params := pa }
        = h2 { request := stripDataParam (stripIndexParam req), context := c, params := pa } →
      callRouteAction c ⟨rid, ⟨some h1, lo⟩⟩ pa req
          = callRouteAction c ⟨rid, ⟨some h2, lo⟩⟩ pa req ∧
      callRouteLoader c ⟨rid, ⟨ao, some h1⟩⟩ pa req
          = callRouteLoader c ⟨rid, ⟨ao, some h2⟩⟩ pa req) := by
  refine ⟨?_, ?_, ?_⟩
  · rw [List.all_eq_true]
    intro p hp
    simp only [stripDataParam, stripIndexParam, searchParamsDelete, List.filter_append,
      List.mem_append, List.mem_filter, List.mem_map] at hp
    rcases hp with ⟨⟨hmem, hidx⟩, hdata⟩ | ⟨⟨v, hv, hpv⟩, hdata⟩
    · simp [hidx, hdata]
    · have hvne : (v != "") = true := hv.2
      subst hpv
      simp [hvne]
  · simp only [stripDataParam, stripIndexParam]
    exact getAll_index_strip req.url.params _
  · intro c pa rid ao lo h1 h2 hagree
    rw [callRouteAction_some_eq, callRouteAction_some_eq, callRouteLoader_some_eq,
      callRouteLoader_some_eq, hagree]
    exact ⟨rfl, rfl⟩

/-- Witness for C3 at a concrete request: the normalized `index` values,
and two textually different handlers agreeing at the normalized request
give equal outcomes. -/
theorem callRoute_request_normalization_witness :
    searchParamsGetAll (stripDataParam (stripIndexParam req0)).url.params "index" = ["b"] ∧
    callRouteAction ctx0 ⟨"w3", ⟨some handlerData1, none⟩⟩ [] req0
      = callRouteAction ctx0 ⟨"w3", ⟨some handlerData1Copy, none⟩⟩ [] req0 :=
  ⟨((callRoute_request_normalization req0).2.1).trans (by decide),
   (((callRoute_request_normalization req0).2.2 ctx0 [] "w3" none none
      handlerData1 handlerData1Copy) rfl).1⟩

/-- C4 counterexample: the entry points do not dispatch on the request
method: on a POST request `callRouteLoader` still invokes the loader
(two loaders differing only in their data give different outcomes), and
on a GET request `callRouteAction` still invokes the action. -/
theorem callRoute_no_method_dispatch_cex :
    callRouteLoader ctx0 ⟨"root", ⟨none, some handlerData1⟩⟩ [] reqPost
      ≠ callRouteLoader ctx0 ⟨"root", ⟨none, some handlerData2⟩⟩ [] reqPost ∧
    callRouteAction ctx0 ⟨"root", ⟨some handlerData1, none⟩⟩ [] req0
      ≠ callRouteAction ctx0 ⟨"root", ⟨some handlerData2, none⟩⟩ [] req0 := by
  constructor <;> decide

/-- C4 amended: the entry points perform no method-based gating; each
invokes its present handler at the normalized request for every request,
whatever the method, and the outcome is the processed handler
outcome. -/
theorem callRoute_invokes_handler_any_method (c : AppLoadContext) (rid : String)
    (ao lo : Option Handler) (action loader : Handler) (p : Params) (req : Request) :
    callRouteAction c ⟨rid, ⟨some action, lo⟩⟩ p req
      = processHandlerOutcome (actionUndefinedMessage rid)
          (action { request := stripDataParam (stripIndexParam req), context := c, params := p }) ∧
    callRouteLoader c ⟨rid, ⟨ao, some loader⟩⟩ p req
      = processHandlerOutcome (loaderUndefinedMessage rid)
          (loader { request := stripDataParam (stripIndexParam req), context := c, params := p }) :=
  ⟨callRouteAction_some_eq c rid action lo p req, callRouteLoader_some_eq c rid loader ao p req⟩

/-- C5 counterexample: with the same handler installed as both action
and loader, a handler resolving to `undefined` makes the two entry
points throw different `Error` values (their messages differ). -/
theorem callRouteAction_loader_diverge_on_undef :
    callRouteAction ctx0 ⟨"root", ⟨some handlerUndef, some handlerUndef⟩⟩ [] req0
      ≠ callRouteLoader ctx0 ⟨"root", ⟨some handlerUndef, some handlerUndef⟩⟩ [] req0 := by
  decide

/-- C5 amended: with the same function installed as action and loader,
the two entry points agree on every outcome except the
`undefined`-resolution case. -/
theorem callRouteAction_eq_callRouteLoader (c : AppLoadContext) (rid : String)
    (h : Handler) (p : Params) (req : Request)
    (hne : h { request := stripDataParam (stripIndexParam req), context := c, params := p }
             ≠ Outcome.ret AppData.undef) :
    callRouteAction c ⟨rid, ⟨some h, some h⟩⟩ p req
      = callRouteLoader c ⟨rid, ⟨some h, some h⟩⟩ p req := by
  rw [callRouteAction_some_eq, callRouteLoader_some_eq]
  cases ho : h { request := stripDataParam (stripIndexParam req), context := c, params := p } with
  | ret v =>
      cases v with
      | response r => rfl
      | data d => rfl
      | undef => exact absurd ho hne
  | thrown e =>
      cases e with
      | resp r => by_cases hr : isRedirectResponse r = true <;> simp [processHandlerOutcome, hr]
      | errorObj m => rfl
      | other v => rfl

/-- Witness for C5 at a concrete input whose handler does not resolve to
`undefined`. -/
theorem callRouteAction_eq_callRouteLoader_witness :
    callRouteAction ctx0 ⟨"w5", ⟨some handlerData1, some handlerData1⟩⟩ [] req0
      = callRouteLoader ctx0 ⟨"w5", ⟨some handlerData1, some handlerData1⟩⟩ [] req0 :=
  callRouteAction_eq_callRouteLoader ctx0 "w5" handlerData1 [] req0 (by decide)

/-- C8: each strip transform is single-purpose: the parameters it is not
about are unchanged in key, value and relative order, and the URL base,
method, headers and body are carried over unchanged. -/
theorem strip_transforms_frame (req : Request) :
    ((stripIndexParam req).url.params.filter (fun p => p.1 != "index")
        = req.url.params.filter (fun p => p.1 != "index")) ∧
    (stripIndexParam req).url.base = req.url.base ∧
    (stripIndexParam req).method = req.method ∧
    (stripIndexParam req).headers = req.headers ∧
    (stripIndexParam req).body = req.body ∧
    ((stripDataParam req).url.params.filter (fun p => p.1 != "_data")
        = req.url.params.filter (fun p => p.1 != "_data")) ∧
    (stripDataParam req).url.base = req.url.base ∧
    (stripDataParam req).method = req.method ∧
    (stripDataParam req).headers = req.headers ∧
    (stripDataParam req).body = req.body := by
  refine ⟨?_, rfl, rfl, rfl, rfl, ?_, rfl, rfl, rfl, rfl⟩
  · simp only [stripIndexParam]
    rw [List.filter_append, filter_searchParamsDelete, filter_ne_index_map, List.append_nil]
    rfl
  · simp only [stripDataParam]
    rw [filter_searchParamsDelete]
    rfl

/-- C10: `extractData` parses the body as JSON exactly when the
`Content-Type` header is present and contains `application/json` with a
word boundary on each side; in every other case, a missing header
included, the body is read as text. -/
theorem extractData_classification (r : Response) :
    (extractData r = Extracted.asJson r.body ↔
      ∃ ct, getHeader r.headers "Content-Type" = some ct ∧
        WordBoundedOccurs "application/json".toList ct.toList) ∧
    (extractData r = Extracted.asText r.body ↔
      ¬ ∃ ct, getHeader r.headers "Content-Type" = some ct ∧
        WordBoundedOccurs "application/json".toList ct.toList) := by
  cases hct : getHeader r.headers "Content-Type" with
  | none => simp [extractData, hct]
  | some ct =>
      have hiff1 : extractData r = Extracted.asJson r.body ↔
          (ct != "" && matchesJsonContentType ct) = true := by
        by_cases hb : (ct != "" && matchesJsonContentType ct) = true <;>
          simp [extractData, hct, hb]
      have hiff2 : extractData r = Extracted.asText r.body ↔
          ¬ (ct != "" && matchesJsonContentType ct) = true := by
        by_cases hb : (ct != "" && matchesJsonContentType ct) = true <;>
          simp [extractData, hct, hb]
      have hcond : (ct != "" && matchesJsonContentType ct) = true ↔
          WordBoundedOccurs "application/json".toList ct.toList := by
        constructor
        · intro hb
          exact (matchesJsonContentType_iff ct).mp ((Bool.and_eq_true _ _).mp hb).2
        · intro hocc
          have hmm := (matchesJsonContentType_iff ct).mpr hocc
          have hnonnil : ct.toList ≠ [] := by
            rcases hocc with ⟨pre, post, hsplit, -, -⟩
            rw [hsplit]
            intro hnil
            rcases List.append_eq_nil.mp hnil with ⟨h1, h2⟩
            rcases List.append_eq_nil.mp h1 with ⟨h3, h4⟩
            exact absurd h4 (by decide)
          have hctne : ct ≠ "" := fun he => hnonnil (by rw [he]; rfl)
          exact (Bool.and_eq_true _ _).mpr ⟨bne_iff_ne.mpr hctne, hmm⟩
      have hexists : (∃ ct2, (some ct : Option String) = some ct2 ∧
          WordBoundedOccurs "application/json".toList ct2.toList) ↔
          WordBoundedOccurs "application/json".toList ct.toList := by
        constructor
        · rintro ⟨ct2, hct2, hw2⟩
          injection hct2 with he
          rw [he]
          exact hw2
        · intro hw2
          exact ⟨ct, rfl, hw2⟩
      exact ⟨hiff1.trans (hcond.trans hexists.symm),
        hiff2.trans (not_congr (hcond.trans hexists.symm))⟩

/-- Witness for C10: a concrete JSON response is parsed as JSON, through
the classification theorem. -/
theorem extractData_classification_witness :
    extractData respJson = Extracted.asJson (some "x") :=
  (extractData_classification respJson).1.mpr
    ⟨"application/json", rfl, ⟨[], [], rfl, by simp, by simp⟩⟩

end Remix
